import Mathlib

/-!
# JobBot — formal model of the field-resolution and batch-execution engine

A shallow embedding in Lean 4 of the core of `server/runner.mjs` (JobBot):
CSV outcome logging, the selector/label registry, the field-resolution
cascades, the form-stability detector, the page-metadata extractor, and the
per-URL orchestration of the batch runner (including the auto-submit
variant of the runner).

Browser-side effects (Playwright) are modelled explicitly: a `Page` is a
list of form `Control`s (plus text blocks for the nearby-text heuristic);
locator queries become predicates over controls; value writes become
functional updates.  Failure of a DOM write (Playwright `fill`/`click`
rejections that the source catches) is modelled by per-control capability
flags (`visible`, `fillable`).  JavaScript strings that may be `undefined`
are modelled as `Option String`, with JS falsiness (`!value` true on `''`
and `undefined`) captured by `isBlank`.
-/

namespace JobBot

/-! ## JS string helpers -/

/-- JS falsiness of a possibly-undefined string: `!value` is `true` exactly
when the value is `undefined`/`null` or the empty string. -/
def isBlank : Option String → Bool
  | none => true
  | some s => s = ""

/-- The string carried by a possibly-undefined JS string (only used after a
non-blank check). -/
def strOf (v : Option String) : String := v.getD ""

/-- JS `a || d` for a possibly-undefined string `a` and a (non-empty) string
default `d`: the default is taken when `a` is `undefined` or `''`. -/
def jsOr (v : Option String) (d : String) : String :=
  match v with
  | none => d
  | some s => if s = "" then d else s

/-- Lower-cased character list of a string (for case-insensitive matching). -/
def lowerChars (s : String) : List Char := s.toList.map Char.toLower

/-- Lower-cased string (JS `toLowerCase()`). -/
def lowerStr (s : String) : String := String.mk (lowerChars s)

/-- Does the first list occur as a contiguous initial segment of the second? -/
def prefixChars : List Char → List Char → Bool
  | [], _ => true
  | _ :: _, [] => false
  | a :: as, b :: bs => a = b && prefixChars as bs

/-- Does `needle` occur contiguously anywhere inside `haystack`? -/
def subChars (needle : List Char) : List Char → Bool
  | [] => needle.isEmpty
  | h :: t => prefixChars needle (h :: t) || subChars needle t

/-- Case-insensitive substring test: does `haystack` contain `needle`?
Models Playwright's `exact: false` label/name matching and the `i` flag of
CSS attribute selectors. -/
def containsCI (haystack needle : String) : Bool :=
  subChars (lowerChars needle) (lowerChars haystack)

/-- Case-sensitive substring test (CSS `[attr*="v"]` without the `i` flag,
and JS `String.prototype.includes`). -/
def containsCS (haystack needle : String) : Bool :=
  subChars needle.toList haystack.toList

/-! ## CSV escaping and the durable outcome log

Models `escapeCsvValue`, `appendCsv` and `ensureOutFiles` from
`server/runner.mjs` (lines 32–70).  Cell contents are `List Char` so that
the quote-doubling rewrite is a plain structural recursion. -/

/-- The characters that trigger CSV quoting: `/[",\n]/` in `escapeCsvValue`. -/
def isCsvSpecial (c : Char) : Bool := c = '"' || c = ',' || c = '\n'

/-- Models `value.replace(/"/g, '""')`: double every double-quote. -/
def escapeChars : List Char → List Char
  | [] => []
  | c :: cs => if c = '"' then '"' :: '"' :: escapeChars cs else c :: escapeChars cs

/-- Models `escapeCsvValue` (runner.mjs:46-49): wrap in double quotes, doubling
internal quotes, exactly when the value contains `"`, `,` or a newline. -/
def escapeCsvValue (s : List Char) : List Char :=
  if s.any isCsvSpecial then '"' :: (escapeChars s ++ ['"']) else s

/-- Standard CSV reading of the body of a quoted cell (everything after the
opening quote): `""` decodes to one `"`; a lone `"` must be the final
character; the cell must be terminated.  Returns `none` on malformed input. -/
def parseQuotedBody : List Char → Option (List Char)
  | [] => none
  | c :: cs =>
    if c = '"' then
      match cs with
      | [] => some []
      | d :: ds => if d = '"' then (parseQuotedBody ds).map (fun r => '"' :: r) else none
    else (parseQuotedBody cs).map (fun r => c :: r)

/-- Standard CSV reading of a single (already comma-delimited) cell: a cell
starting with `"` is read as a quoted cell, otherwise it is taken verbatim
provided it contains no special character. -/
def parseCsvCell (s : List Char) : Option (List Char) :=
  match s with
  | [] => some []
  | c :: rest =>
    if c = '"' then parseQuotedBody rest
    else if (c :: rest).any isCsvSpecial then none else some (c :: rest)

/-- The fixed 11-column header written by `ensureOutFiles` (runner.mjs:38),
including its terminating newline. -/
def csvHeaderChunk : List Char :=
  "version,timestamp_start,timestamp_end,status,company,job_title,source,url,resume_used,notes,job_id\n".toList

/-- One job-application record, as passed to `appendCsv` (runner.mjs:54-70).
Optional row fields (`row.company || ''` …) are already-defaulted strings. -/
structure CsvRow where
  tsStart : String
  tsEnd : String
  status : String
  company : String
  title : String
  source : String
  url : String
  resume : String
  notes : String
  jobId : String

/-- Models `Array.prototype.join(',')` on cell contents. -/
def joinComma : List (List Char) → List Char
  | [] => []
  | [c] => c
  | c :: cs => c ++ ',' :: joinComma cs

/-- The 11 cells of a record, in the column order of `appendCsv`
(runner.mjs:55-67); the leading `1` is the constant version tag. -/
def rowCells (row : CsvRow) : List (List Char) :=
  ["1".toList, row.tsStart.toList, row.tsEnd.toList, row.status.toList,
   row.company.toList, row.title.toList, row.source.toList, row.url.toList,
   row.resume.toList, row.notes.toList, row.jobId.toList]

/-- The escaped CSV line appended for one record, newline included
(runner.mjs:55-67: `[...].map(escapeCsvValue).join(',') + '\n'`). -/
def appendCsvLine (row : CsvRow) : List Char :=
  joinComma ((rowCells row).map escapeCsvValue) ++ ['\n']

/-- The contents of `output/applied.csv`, as the list of chunks appended to
it over time; `none` means the file does not exist yet. -/
abbrev CsvFile := Option (List (List Char))

/-- Models `ensureOutFiles` (runner.mjs:32-41): create the file with the header
only when it is absent (`fs.access` rejected); otherwise leave it alone. -/
def ensureOutFiles : CsvFile → List (List Char)
  | none => [csvHeaderChunk]
  | some content => content

/-- One filesystem operation performed against the log file. -/
inductive OutOp
  | ensure
  | append (row : CsvRow)

/-- Apply one operation: `ensure` is `ensureOutFiles`; `append` is
`fs.appendFile` (which creates the file when absent). -/
def applyOp (st : CsvFile) : OutOp → CsvFile
  | .ensure => some (ensureOutFiles st)
  | .append row => some (st.getD [] ++ [appendCsvLine row])

/-- Run a sequence of log-file operations. -/
def applyOps (st : CsvFile) (ops : List OutOp) : CsvFile :=
  ops.foldl applyOp st

/-- Number of chunks of the file equal to the header line. -/
def countHeaderLines (st : CsvFile) : Nat :=
  (st.getD []).countP (fun l => l = csvHeaderChunk)

/-! ## The page model

A `Control` is one form control of the live page, carrying the markup
attributes the structural selectors inspect, its accessibility facts
(associated label text, ARIA role and accessible name), its driver-level
capabilities, and its mutable state (value / checked / selected files /
clicked).  `visible` models `isVisible()`; `fillable` models whether a
Playwright `fill`/`selectOption`-fallback/`pressSequentially` write on the
control resolves (the source catches the rejection and moves on when it
does not). -/

structure Control where
  tag : String := "input"
  typeAttr : String := "text"
  nameAttr : String := ""
  idAttr : String := ""
  placeholder : String := ""
  ariaLabel : String := ""
  autocomplete : String := ""
  dataField : String := ""
  dataName : String := ""
  /-- text of the associated `<label>` / accessible label (for `getByLabel`) -/
  labelText : String := ""
  /-- ARIA role (for `getByRole`); also the `role` attribute -/
  role : String := ""
  /-- accessible name (for `getByRole(..., { name })`) -/
  accName : String := ""
  /-- rendered text content (for `:has-text(...)`) -/
  textContent : String := ""
  /-- Models `<option>`s of a `<select>`: (visible label, underlying value) pairs -/
  options : List (String × String) := []
  /-- index of the enclosing `role=group` control, if any -/
  parent : Option Nat := none
  visible : Bool := true
  fillable : Bool := true
  value : String := ""
  checked : Bool := false
  files : Option String := none
  clicked : Bool := false
deriving DecidableEq

/-- One text block of the page, for the `text=... >> .. >> input` locator of
`fillGenericField`: its rendered text and the indices of the `input`
controls under the text's container. -/
structure TextBlock where
  content : String
  inputs : List Nat
deriving DecidableEq

/-- The live page: form controls (in DOM order) and text blocks. -/
structure Page where
  controls : List Control
  texts : List TextBlock := []
deriving DecidableEq

/-- How a CSS attribute selector compares the attribute against its value. -/
inductive MatchMode
  | exact
  | contains
  | containsCI
deriving DecidableEq

/-- One CSS selector of the shapes used by the source:
`tag[attr="v"]`, `tag[attr*="v"]`, `tag[attr*="v" i]`. -/
structure Sel where
  tag : String
  attr : String
  mode : MatchMode
  val : String
deriving DecidableEq

/-- The markup attribute of a control addressed by an attribute selector. -/
def attrOf (c : Control) (a : String) : String :=
  if a = "name" then c.nameAttr
  else if a = "id" then c.idAttr
  else if a = "placeholder" then c.placeholder
  else if a = "type" then c.typeAttr
  else if a = "aria-label" then c.ariaLabel
  else if a = "autocomplete" then c.autocomplete
  else if a = "data-field" then c.dataField
  else if a = "data-name" then c.dataName
  else ""

/-- Does a control match a CSS selector? -/
def matchesSel (c : Control) (s : Sel) : Bool :=
  c.tag = s.tag &&
    (match s.mode with
     | .exact => attrOf c s.attr = s.val
     | .contains => containsCS (attrOf c s.attr) s.val
     | .containsCI => containsCI (attrOf c s.attr) s.val)

/-- Index of the first element of the list satisfying the predicate
(`locator(...).first()` resolves to the first match in DOM order). -/
def firstIdxWhere (p : Control → Bool) : List Control → Option Nat
  | [] => none
  | c :: cs => if p c then some 0 else (firstIdxWhere p cs).map (· + 1)

/-- Index of the first control of the page matching a CSS selector. -/
def firstMatchIdx (page : Page) (s : Sel) : Option Nat :=
  firstIdxWhere (fun c => matchesSel c s) page.controls

/-- Replace the control at an index (out-of-range indices leave the page
unchanged, mirroring a locator that resolves to nothing). -/
def replaceAt (page : Page) (i : Nat) (c : Control) : Page :=
  { page with controls := page.controls.set i c }

/-- Write a value into the control at an index (`fill`). -/
def setValueAt (page : Page) (i : Nat) (v : String) : Page :=
  match page.controls[i]? with
  | some c => replaceAt page i { c with value := v }
  | none => page

/-- Check the radio at an index (`check()` / fallback `click()`). -/
def setCheckedAt (page : Page) (i : Nat) : Page :=
  match page.controls[i]? with
  | some c => replaceAt page i { c with checked := true }
  | none => page

/-- Attach a file to the control at an index (`setInputFiles`). -/
def setFilesAt (page : Page) (i : Nat) (path : String) : Page :=
  match page.controls[i]? with
  | some c => replaceAt page i { c with files := some path }
  | none => page

/-- Click the control at an index. -/
def clickAt (page : Page) (i : Nat) : Page :=
  match page.controls[i]? with
  | some c => replaceAt page i { c with clicked := true }
  | none => page

/-! ## Selector/label registry (runner.mjs:572-670) -/

namespace FIELD_LABELS

def firstName : List String := ["First name", "Given name", "Vorname", "Prénom", "First Name", "Firstname"]

def lastName : List String := ["Last name", "Family name", "Surname", "Nachname", "Nom", "Last Name", "Lastname"]

def fullName : List String := ["Full name", "Your full name", "Name (full)", "Full Name", "Name"]

def phone : List String := ["Phone", "Phone number", "Telefon", "Téléphone", "Phone Number", "Mobile", "Telephone"]

def email : List String := ["Email", "E-mail", "Email address", "E-Mail", "E-mail address", "Email Address"]

def gender : List String := ["Gender", "Gender to which you identify as", "Geschlecht"]

def personalUrl : List String := ["Personal URL", "Website", "Portfolio", "Personal site", "Homepage", "Website URL"]

def cv : List String := ["Curriculum vitae", "CV", "Resume", "Lebenslauf", "Resume/CV", "Cover Letter"]

def country : List String := ["What country do you currently live in", "Country", "Current country", "Location"]

def tax : List String := ["Tax residence", "Where is your tax residence"]

def notice : List String := ["Notice period", "What is your notice period"]

def salary : List String := ["Salary expectations", "What are your salary expectations", "Salary (EUR)", "Expected salary", "Salary"]

def referred : List String := ["Were you referred", "Referral", "Referred by"]

def linkedin : List String := ["LinkedIn", "LinkedIn profile", "LinkedIn URL", "LinkedIn Profile"]

def github : List String := ["GitHub", "GitHub profile", "GitHub URL", "GitHub Profile", "Github", "Github profile"]

end FIELD_LABELS

/-- Models `FIRST_NAME_SELECTORS` (runner.mjs:595-599). -/
def FIRST_NAME_SELECTORS : List Sel :=
  [⟨"input", "name", .containsCI, "first"⟩, ⟨"input", "id", .containsCI, "first"⟩,
   ⟨"input", "placeholder", .containsCI, "first"⟩,
   ⟨"input", "name", .contains, "firstName"⟩, ⟨"input", "id", .contains, "firstName"⟩,
   ⟨"input", "name", .contains, "first_name"⟩, ⟨"input", "id", .contains, "first_name"⟩]

/-- Models `LAST_NAME_SELECTORS` (runner.mjs:601-605). -/
def LAST_NAME_SELECTORS : List Sel :=
  [⟨"input", "name", .containsCI, "last"⟩, ⟨"input", "id", .containsCI, "last"⟩,
   ⟨"input", "placeholder", .containsCI, "last"⟩,
   ⟨"input", "name", .contains, "lastName"⟩, ⟨"input", "id", .contains, "lastName"⟩,
   ⟨"input", "name", .contains, "last_name"⟩, ⟨"input", "id", .contains, "last_name"⟩]

/-- Models `FULL_NAME_SELECTORS` (runner.mjs:607-614). -/
def FULL_NAME_SELECTORS : List Sel :=
  [⟨"input", "autocomplete", .exact, "name"⟩,
   ⟨"input", "name", .exact, "fullName"⟩, ⟨"input", "id", .exact, "fullName"⟩,
   ⟨"input", "name", .exact, "fullname"⟩, ⟨"input", "id", .exact, "fullname"⟩,
   ⟨"input", "placeholder", .containsCI, "full name"⟩,
   ⟨"input", "aria-label", .containsCI, "full name"⟩,
   ⟨"input", "name", .contains, "full_name"⟩, ⟨"input", "id", .contains, "full_name"⟩]

/-- Models `generateFieldSelectors` (runner.mjs:620-641): the five case-insensitive
attribute-substring selectors for a field type, then the same five for each
variation. -/
def generateFieldSelectors (fieldType : String) (variations : List String := []) : List Sel :=
  let base := fun (v : String) =>
    [⟨"input", "name", MatchMode.containsCI, v⟩, ⟨"input", "id", MatchMode.containsCI, v⟩,
     ⟨"input", "placeholder", MatchMode.containsCI, v⟩,
     ⟨"input", "data-field", MatchMode.containsCI, v⟩, ⟨"input", "data-name", MatchMode.containsCI, v⟩]
  base fieldType ++ variations.foldr (fun v acc => base v ++ acc) []

/-- Models `GENERIC_SELECTORS` (runner.mjs:647-670), as a total lookup:
`GENERIC_SELECTORS[fieldType] || []`. -/
def GENERIC_SELECTORS (fieldType : String) : List Sel :=
  if fieldType = "email" then
    ⟨"input", "type", .exact, "email"⟩ :: generateFieldSelectors "email"
  else if fieldType = "phone" then
    ⟨"input", "type", .exact, "tel"⟩ :: generateFieldSelectors "phone" ["mobile", "telephone"]
  else if fieldType = "salary" then
    generateFieldSelectors "salary" ++
      [⟨"select", "name", .containsCI, "salary"⟩, ⟨"select", "id", .containsCI, "salary"⟩]
  else if fieldType = "linkedin" then
    generateFieldSelectors "linkedin" ["linked_in", "social_linkedin", "profile_linkedin", "url_linkedin"]
  else if fieldType = "github" then
    generateFieldSelectors "github" ["git_hub", "social_github", "profile_github", "url_github"]
  else if fieldType = "website" then
    generateFieldSelectors "website" ["portfolio", "url", "homepage"]
  else if fieldType = "twitter" then
    generateFieldSelectors "twitter" ["social_twitter", "profile_twitter", "url_twitter"]
  else if fieldType = "facebook" then
    generateFieldSelectors "facebook" ["social_facebook", "profile_facebook", "url_facebook"]
  else if fieldType = "instagram" then
    generateFieldSelectors "instagram" ["social_instagram", "profile_instagram", "url_instagram"]
  else if fieldType = "experience" then
    generateFieldSelectors "experience" ["work_experience", "job_experience", "professional_experience"]
  else if fieldType = "education" then
    generateFieldSelectors "education" ["educational_background", "academic_background"]
  else if fieldType = "skills" then
    generateFieldSelectors "skills" ["technical_skills", "professional_skills", "competencies"]
  else []

/-! ## Field-resolution helpers (runner.mjs:194-433)

Each helper returns whether it wrote, the resulting page, and — mirroring
the source's per-attempt log narration — the ordered list of resolution
strategies it attempted (ghost data used only to state ordering
properties). -/

/-- A resolution strategy attempted for one field. -/
inductive Attempt
  | structural
  | nearbyText
  | labelAttempt
  | roleAttempt
deriving DecidableEq

/-- Result of one field-resolution call. -/
structure FillResult where
  ok : Bool
  page : Page
  trace : List Attempt
deriving DecidableEq

/-- Prepend an attempt to a result's trace. -/
def consTrace (a : Attempt) (r : FillResult) : FillResult :=
  { r with trace := a :: r.trace }

/-- First control whose associated label text contains the query
(`page.getByLabel(name, { exact: false })`, then `.first()`);
`none` also models `count() = 0`. -/
def getByLabelIdx (page : Page) (name : String) : Option Nat :=
  firstIdxWhere (fun c => containsCI c.labelText name) page.controls

/-- First control with the given ARIA role whose accessible name contains
the query (`page.getByRole(role, { name, exact: false }).first()`). -/
def getByRoleIdx (page : Page) (role name : String) : Option Nat :=
  firstIdxWhere (fun c => c.role = role && containsCI c.accName name) page.controls

/-- One probe of `findFirstVisibleSelector` (runner.mjs:368-380): does the
selector's first matching element exist (`count()`) and report visible? -/
def selVisibleHit (page : Page) (s : Sel) : Bool :=
  match firstMatchIdx page s with
  | some i =>
    match page.controls[i]? with
    | some c => c.visible
    | none => false
  | none => false

/-- Models `findFirstVisibleSelector` (runner.mjs:367-385): the first selector of
the list whose first matching element exists and is visible. -/
def findFirstVisibleSelector (page : Page) : List Sel → Option Sel
  | [] => none
  | s :: rest =>
    if selVisibleHit page s then some s else findFirstVisibleSelector page rest

/-- Models `page.fill(selector, value).catch(() => {})` (runner.mjs:729-735): fill
the first element matching the selector; a rejected fill (no match, hidden
or unfillable target) is swallowed, leaving the page unchanged. -/
def pageFill (page : Page) (s : Sel) (v : String) : Page :=
  match firstMatchIdx page s with
  | some i =>
    match page.controls[i]? with
    | some c => if c.visible && c.fillable then setValueAt page i v else page
    | none => page
  | none => page

/-- The label pass of `fillTextByLabel` (runner.mjs:201-212): for each label
in order, if `getByLabel` has a match, fill its first element; a rejected
fill falls through to the next label. -/
def labelPassTB (page : Page) (v : String) : List String → FillResult
  | [] => ⟨false, page, []⟩
  | name :: rest =>
    match getByLabelIdx page name with
    | some i =>
      match page.controls[i]? with
      | some c =>
        if c.visible && c.fillable then ⟨true, setValueAt page i v, [.labelAttempt]⟩
        else consTrace .labelAttempt (labelPassTB page v rest)
      | none => consTrace .labelAttempt (labelPassTB page v rest)
    | none => consTrace .labelAttempt (labelPassTB page v rest)

/-- The `role=textbox` fallback pass of `fillTextByLabel`
(runner.mjs:215-226). -/
def rolePassTB (page : Page) (v : String) : List String → FillResult
  | [] => ⟨false, page, []⟩
  | name :: rest =>
    match getByRoleIdx page "textbox" name with
    | some i =>
      match page.controls[i]? with
      | some c =>
        if c.visible && c.fillable then ⟨true, setValueAt page i v, [.roleAttempt]⟩
        else consTrace .roleAttempt (rolePassTB page v rest)
      | none => consTrace .roleAttempt (rolePassTB page v rest)
    | none => consTrace .roleAttempt (rolePassTB page v rest)

/-- Models `fillTextByLabel` (runner.mjs:194-230): empty-value guard, label pass,
then role pass. -/
def fillTextByLabel (page : Page) (labels : List String) (value : Option String) : FillResult :=
  if isBlank value then ⟨false, page, []⟩
  else
    let r := labelPassTB page (strOf value) labels
    if r.ok then r
    else
      let r2 := rolePassTB r.page (strOf value) labels
      ⟨r2.ok, r2.page, r.trace ++ r2.trace⟩

/-- The radio match inside labelled groups (runner.mjs:241-255): if any
`role=group` control's accessible name contains the group label, the first
`role=radio` control whose accessible name contains the option text and
whose parent is such a group. -/
def radioInGroups (page : Page) (groupLabel optionText : String) : Option Nat :=
  let isGroup := fun (j : Nat) =>
    match page.controls[j]? with
    | some g => g.role = "group" && containsCI g.accName groupLabel
    | none => false
  if page.controls.any (fun g => g.role = "group" && containsCI g.accName groupLabel) then
    firstIdxWhere
      (fun c => c.role = "radio" && containsCI c.accName optionText &&
        (match c.parent with | some j => isGroup j | none => false))
      page.controls
  else none

/-- The grouped pass of `clickRadioByLabel`: try each group label in order,
checking the matched radio (`check().catch(click)`). -/
def radioGroupPass (page : Page) (optionText : String) : List String → FillResult
  | [] => ⟨false, page, []⟩
  | g :: rest =>
    match radioInGroups page g optionText with
    | some i => ⟨true, setCheckedAt page i, []⟩
    | none => radioGroupPass page optionText rest

/-- Models `clickRadioByLabel` (runner.mjs:235-271): empty-option guard, grouped
pass, then the global fallback searching the whole page for a radio with
the option's accessible name. -/
def clickRadioByLabel (page : Page) (labels : List String) (optionText : Option String) : FillResult :=
  if isBlank optionText then ⟨false, page, []⟩
  else
    let r := radioGroupPass page (strOf optionText) labels
    if r.ok then r
    else
      match getByRoleIdx page "radio" (strOf optionText) with
      | some i => ⟨true, setCheckedAt page i, []⟩
      | none => ⟨false, page, []⟩

/-- The write attempted on a labelled select-like control
(runner.mjs:290-294): `selectOption({ label })`, falling back to
`selectOption({ value })`, falling back to `fill`; `none` when all three
reject. -/
def trySelectValue (c : Control) (v : String) : Option Control :=
  match c.options.find? (fun o => o.1 = v) with
  | some o => some { c with value := o.2 }
  | none =>
    match c.options.find? (fun o => o.2 = v) with
    | some _ => some { c with value := v }
    | none => if c.fillable then some { c with value := v } else none

/-- The label pass of `selectByLabel` (runner.mjs:283-304); a hidden target
rejects every write and falls through to the next label. -/
def selectLabelPass (page : Page) (v : String) : List String → FillResult
  | [] => ⟨false, page, []⟩
  | name :: rest =>
    match getByLabelIdx page name with
    | some i =>
      match page.controls[i]? with
      | some c =>
        if c.visible then
          match trySelectValue c v with
          | some c2 => ⟨true, replaceAt page i c2, []⟩
          | none => selectLabelPass page v rest
        else selectLabelPass page v rest
      | none => selectLabelPass page v rest
    | none => selectLabelPass page v rest

/-- The `role=combobox` fallback pass of `selectByLabel`
(runner.mjs:307-319): `fill`, falling back to `pressSequentially`. -/
def comboPass (page : Page) (v : String) : List String → FillResult
  | [] => ⟨false, page, []⟩
  | name :: rest =>
    match getByRoleIdx page "combobox" name with
    | some i =>
      match page.controls[i]? with
      | some c =>
        if c.visible && c.fillable then ⟨true, setValueAt page i v, []⟩
        else comboPass page v rest
      | none => comboPass page v rest
    | none => comboPass page v rest

/-- Models `selectByLabel` (runner.mjs:276-323): empty-value guard, label pass,
then combobox pass. -/
def selectByLabel (page : Page) (labels : List String) (value : Option String) : FillResult :=
  if isBlank value then ⟨false, page, []⟩
  else
    let r := selectLabelPass page (strOf value) labels
    if r.ok then r
    else
      let r2 := comboPass r.page (strOf value) labels
      ⟨r2.ok, r2.page, r.trace ++ r2.trace⟩

/-- The label pass of `setFileByLabel` (runner.mjs:334-346):
`setInputFiles` resolves only on a file input; a rejection falls through to
the next label. -/
def fileLabelPass (page : Page) (path : String) : List String → FillResult
  | [] => ⟨false, page, []⟩
  | name :: rest =>
    match getByLabelIdx page name with
    | some i =>
      match page.controls[i]? with
      | some c =>
        if c.tag = "input" && c.typeAttr = "file" then ⟨true, setFilesAt page i path, []⟩
        else fileLabelPass page path rest
      | none => fileLabelPass page path rest
    | none => fileLabelPass page path rest

/-- Models `setFileByLabel` (runner.mjs:328-362): empty-path guard, label pass,
then the first `input[type=file]` anywhere on the page. -/
def setFileByLabel (page : Page) (labels : List String) (filePath : Option String) : FillResult :=
  if isBlank filePath then ⟨false, page, []⟩
  else
    let r := fileLabelPass page (strOf filePath) labels
    if r.ok then r
    else
      match firstIdxWhere (fun c => c.tag = "input" && c.typeAttr = "file") page.controls with
      | some i => ⟨true, setFilesAt page i (strOf filePath), []⟩
      | none => ⟨false, page, []⟩

/-- The structural-selector pass of `fillGenericField` (runner.mjs:398-413):
for each selector in order, if its first match exists and is visible, fill
it; a rejected fill falls through to the next selector. -/
def structuralPass (page : Page) (v : String) : List Sel → FillResult
  | [] => ⟨false, page, []⟩
  | s :: rest =>
    match firstMatchIdx page s with
    | some i =>
      match page.controls[i]? with
      | some c =>
        if c.visible then
          if c.fillable then ⟨true, setValueAt page i v, [.structural]⟩
          else consTrace .structural (structuralPass page v rest)
        else consTrace .structural (structuralPass page v rest)
      | none => consTrace .structural (structuralPass page v rest)
    | none => consTrace .structural (structuralPass page v rest)

/-- Would the write of one structural selector succeed on this page: its
first matching element exists, is visible, and accepts the fill?  (The
structural pass moves past a selector exactly when this is false.) -/
def selWriteSucceeds (page : Page) (s : Sel) : Bool :=
  match firstMatchIdx page s with
  | some i =>
    match page.controls[i]? with
    | some c => c.visible && c.fillable
    | none => false
  | none => false

/-- The `text=<fieldType> >> .. >> input` lookup (runner.mjs:417-418): the
first input under the container of a text block containing the field's
lowercase name. -/
def nearbyMatchIdx (page : Page) (needle : String) : Option Nat :=
  ((page.texts.filter (fun t => containsCI t.content needle)).flatMap (fun t => t.inputs)).head?

/-- The nearby-text heuristic of `fillGenericField` (runner.mjs:415-429). -/
def nearbyPass (page : Page) (fieldType v : String) : FillResult :=
  match nearbyMatchIdx page (lowerStr fieldType) with
  | some i =>
    match page.controls[i]? with
    | some c =>
      if c.visible && c.fillable then ⟨true, setValueAt page i v, [.nearbyText]⟩
      else ⟨false, page, [.nearbyText]⟩
    | none => ⟨false, page, [.nearbyText]⟩
  | none => ⟨false, page, [.nearbyText]⟩

/-- Models `fillGenericField` (runner.mjs:391-433): empty-value guard, the
predefined structural selectors for the field type, then the nearby-text
heuristic as last resort. -/
def fillGenericField (page : Page) (fieldType : String) (value : Option String) : FillResult :=
  if isBlank value then ⟨false, page, []⟩
  else
    let r := structuralPass page (strOf value) (GENERIC_SELECTORS fieldType)
    if r.ok then r
    else
      let n := nearbyPass r.page fieldType (strOf value)
      ⟨n.ok, n.page, r.trace ++ n.trace⟩

/-- The per-field contact/social step of `runBatch` (runner.mjs:746-759):
generic structural resolution first, label-based resolution only if it
failed. -/
def genericThenLabel (page : Page) (fieldType : String) (labels : List String) (value : Option String) : FillResult :=
  let g := fillGenericField page fieldType value
  if g.ok then g
  else
    let t := fillTextByLabel g.page labels value
    ⟨t.ok, t.page, g.trace ++ t.trace⟩

/-! ## Form-stability detector (runner.mjs:471-499)

The poll at index `k` observes `counts k`, the number of
`input, select, textarea` elements at that instant.  Idealized timing (as
in the spec's own description): poll `k` happens at `500·k` ms, so the
`while (Date.now() - startTime < maxWaitTime)` guard allows exactly the
polls with `500·k < maxWaitTime`, i.e. `k < ⌈maxWaitTime / 500⌉`. -/

/-- The loop body of `waitForFormStability`, with the remaining number of
polls as fuel: compare the current count with the previous one
(`previousFieldCount`, initially `0`), increment or reset `stableCount`,
and return `true` as soon as it reaches `3`. -/
def stabilityLoop (counts : Nat → Nat) : Nat → Nat → Nat → Nat → Bool
  | 0, _, _, _ => false
  | fuel + 1, k, prev, stable =>
    let cur := counts k
    if cur = prev then
      if stable + 1 ≥ 3 then true
      else stabilityLoop counts fuel (k + 1) cur (stable + 1)
    else stabilityLoop counts fuel (k + 1) cur 0

/-- Models `waitForFormStability` (runner.mjs:471-499) with default
`maxWaitTime = 5000` ms and a 500 ms poll interval. -/
def waitForFormStability (counts : Nat → Nat) (maxWaitTime : Nat := 5000) : Bool :=
  stabilityLoop counts ((maxWaitTime + 499) / 500) 0 0 0

/-- The count the loop compares poll `k` against: the previous poll's
count, with the phantom initial value `0` before the first poll
(`previousFieldCount` starts at `0`). -/
def prevCount (counts : Nat → Nat) : Nat → Nat
  | 0 => 0
  | k + 1 => counts k

/-- Declarative reading of the loop's stability counter: the number of
consecutive polls ending at poll `j` whose count equalled the previous
poll's count (with the phantom previous count `0` before poll `0`). -/
def trailingRun (counts : Nat → Nat) : Nat → Nat
  | 0 => if counts 0 = prevCount counts 0 then 1 else 0
  | j + 1 => if counts (j + 1) = prevCount counts (j + 1) then trailingRun counts j + 1 else 0

/-- The value of the loop's `stableCount` variable on entry to poll `k`:
`0` before the first poll, else the trailing run ending at the previous
poll. -/
def stableOf (counts : Nat → Nat) : Nat → Nat
  | 0 => 0
  | j + 1 => trailingRun counts j

/-! ## Page-metadata extraction (runner.mjs:103-183) -/

/-- The record computed inside the browser by `extractMeta`'s
`page.evaluate` (runner.mjs:105-146): the resolved title (og:title /
twitter:title / first h1 / document title, trimmed and truncated browser-
side), the `og:site_name` content, and the JSON-LD JobPosting organization
name.  The browser-side evaluation is the automation-driver boundary; its
DOM internals are not modelled. -/
structure EvalData where
  title : String
  siteName : Option String
  company : Option String

/-- The inputs `extractMeta` consumes from the driver: the result of the
`page.evaluate` call (`none` when the evaluation rejects) and the hostname
of `page.url()` (`none` when the `URL` constructor throws). -/
structure MetaPage where
  evalData : Option EvalData
  urlHost : Option String

/-- The metadata record `{ company, title, source }`. -/
structure Meta where
  company : String
  title : String
  source : String
deriving DecidableEq

/-- The default metadata returned when anything inside `extractMeta`
throws. -/
def defaultMeta : Meta := ⟨"", "", "Other"⟩

/-- The fixed job-board table of `getJobBoardSource` (runner.mjs:166-174),
in source order. -/
def sourceMap : List (String × String) :=
  [("greenhouse.io", "Greenhouse"), ("lever.co", "Lever"), ("myworkdayjobs", "Workday"),
   ("personio", "Personio"), ("join.com", "Personio"), ("smartrecruiters", "SmartRecruiters"),
   ("linkedin.com", "LinkedIn")]

/-- The first table entry whose domain is a substring of the hostname. -/
def lookupSource (hostname : String) : List (String × String) → String
  | [] => "Other"
  | (domain, src) :: rest =>
    if containsCS hostname domain then src else lookupSource hostname rest

/-- Models `getJobBoardSource` (runner.mjs:165-183). -/
def getJobBoardSource (hostname : String) : String :=
  lookupSource hostname sourceMap

/-- Models `hostname.replace(/^www\./, '')`. -/
def stripWww (h : String) : String :=
  if h.startsWith "www." then h.drop 4 else h

/-- JS `a || b || c` over nullable strings: the empty string is falsy. -/
def jsOrOpt (v : Option String) : Option String :=
  match v with
  | some s => if s = "" then none else some s
  | none => none

/-- Models `extractMeta` (runner.mjs:103-160): on success, company is the JSON-LD
organization, else the site name, else the hostname with a leading `www.`
stripped; source comes from the job-board table; any internal exception
yields the default record. -/
def extractMeta (p : MetaPage) : Meta :=
  match p.evalData, p.urlHost with
  | some d, some host =>
    { company := ((jsOrOpt d.company).getD ((jsOrOpt d.siteName).getD (stripWww host))),
      title := d.title,
      source := getJobBoardSource host }
  | _, _ => defaultMeta

/-! ## The batch orchestrator (runner.mjs:679-850) -/

/-- The operator's profile (`config/user.json` after `loadUser`): required
string fields and optional (possibly-undefined) fields. -/
structure Profile where
  firstName : String
  lastName : String
  email : String
  resumePath : String
  phone : Option String := none
  linkedin : Option String := none
  github : Option String := none
  website : Option String := none
  gender : Option String := none
  location : Option String := none
  taxResidence : Option String := none
  noticePeriod : Option String := none
  salary : Option String := none
  referredBy : Option String := none

/-- The name step of `runBatch` (runner.mjs:724-741): if visible
structural first-name and last-name controls are both found, fill them
separately; else if neither is found and a strict full-name control is
found, fill it with `firstName + " " + lastName`; else fall back to
label-driven first/last resolution. -/
def nameStep (user : Profile) (page : Page) : Page :=
  let firstSelector := findFirstVisibleSelector page FIRST_NAME_SELECTORS
  let lastSelector := findFirstVisibleSelector page LAST_NAME_SELECTORS
  let fullSelector := findFirstVisibleSelector page FULL_NAME_SELECTORS
  match firstSelector, lastSelector, fullSelector with
  | some fs, some ls, _ =>
    pageFill (pageFill page fs user.firstName) ls user.lastName
  | none, none, some fls =>
    pageFill page fls (user.firstName ++ " " ++ user.lastName)
  | _, _, _ =>
    (fillTextByLabel
      (fillTextByLabel page FIELD_LABELS.firstName (some user.firstName)).page
      FIELD_LABELS.lastName (some user.lastName)).page

/-- The questions/selects step of `runBatch` (runner.mjs:783-802): gender
radio (only when the profile has one), then country and tax residence with
default `'Germany'`, notice period with default `'Immediate'`, salary with
default `'Flexible'`, then referral. -/
def questionsStep (user : Profile) (page : Page) : Page :=
  let p1 := if isBlank user.gender then page
            else (clickRadioByLabel page FIELD_LABELS.gender user.gender).page
  let p2 := (selectByLabel p1 FIELD_LABELS.country (some (jsOr user.location "Germany"))).page
  let p3 := (selectByLabel p2 FIELD_LABELS.tax (some (jsOr user.taxResidence "Germany"))).page
  let p4 := (fillTextByLabel p3 FIELD_LABELS.notice (some (jsOr user.noticePeriod "Immediate"))).page
  let p5 := (fillTextByLabel p4 FIELD_LABELS.salary (some (jsOr user.salary "Flexible"))).page
  (fillTextByLabel p5 FIELD_LABELS.referred (some (jsOr user.referredBy ""))).page

/-- Models `e?.message || 'unknown error'` (runner.mjs:831): the notes recorded
for a caught exception, given its `message` property (`none` when the
thrown value has no message). -/
def jsMessage (msg : Option String) : String :=
  match msg with
  | some s => if s = "" then "unknown error" else s
  | none => "unknown error"

/-- Outcome of the `try` body for one URL (navigation, stabilization,
metadata, filling, hold), as decided by the live environment:
either the body ran to completion with final status/notes/meta, or some
step threw, carrying the exception's message property and the value of
`meta` at the time of the throw (the default when it threw before
`extractMeta` returned). -/
inductive BodyOutcome
  | finished (status notes : String) (meta : Meta)
  | threw (msg : Option String) (meta : Meta)

/-- The timing/identity strings the loop derives for one URL
(timestamps, job id, resolved resume path) — irrelevant to the claims. -/
structure UrlCtx where
  tsStart : String
  tsEnd : String
  jobId : String
  resume : String

/-- One iteration of the URL loop of `runBatch` (runner.mjs:690-843):
`status` starts as `'error'` and `notes` empty; the `try` body may replace
them; the `catch` converts a thrown exception to status `'error'` with its
message (or `'unknown error'`) as notes; the record is appended in either
case. -/
def processUrl (env : String → BodyOutcome) (ctx : UrlCtx) (url : String) : CsvRow :=
  let outcome :=
    match env url with
    | .finished s n m => (s, n, m)
    | .threw msg m => ("error", jsMessage msg, m)
  { tsStart := ctx.tsStart, tsEnd := ctx.tsEnd, status := outcome.1,
    company := outcome.2.2.company, title := outcome.2.2.title, source := outcome.2.2.source,
    url := url, resume := ctx.resume, notes := outcome.2.1, jobId := ctx.jobId }

/-- The URL loop of `runBatch`: one record appended per URL, in order,
regardless of per-URL outcomes. -/
def runBatchRecords (env : String → BodyOutcome) (ctx : Nat → UrlCtx) : Nat → List String → List CsvRow
  | _, [] => []
  | i, url :: rest => processUrl env (ctx i) url :: runBatchRecords env ctx (i + 1) rest

/-! ## The auto-submit runner variant (src/unnamed/part_002:374-399)

The earlier `runBatch(urls, options)` runner replaces the hold-for-review
step by a submit step: locate a submit-like control and click it when the
`autoSubmit` flag is set. -/

namespace autosubmit

/-- Does a control match the submit-candidate union selector
(part_002:375-382)? `button:has-text(...)` for Apply/Submit/Bewerben/
Absenden, `[role=button]:has-text("Apply")`, or `input[type=submit]`. -/
def isSubmitLike (c : Control) : Bool :=
  (c.tag = "button" && containsCI c.textContent "Apply") ||
  (c.tag = "button" && containsCI c.textContent "Submit") ||
  (c.tag = "button" && containsCI c.textContent "Bewerben") ||
  (c.tag = "button" && containsCI c.textContent "Absenden") ||
  (c.role = "button" && containsCI c.textContent "Apply") ||
  (c.tag = "input" && c.typeAttr = "submit")

/-- The first submit candidate on the page (`.first()`). -/
def firstSubmitIdx (page : Page) : Option Nat :=
  firstIdxWhere isSubmitLike page.controls

/-- Result of the submit step: the status and notes it decides, and the
page after any click. -/
structure SubmitOutcome where
  status : String
  notes : String
  page : Page
deriving DecidableEq

/-- The submit step (part_002:384-399): click and `status='clicked'` when a
candidate exists and `autoSubmit` is set; `status='skipped'` with
`notes='autoSubmit=false'` when a candidate exists but the flag is unset;
`status='skipped'` with `notes='no submit button'` when there is no
candidate.  (`notes` was empty before this step in that runner.) -/
def submitStep (autoSubmit : Bool) (page : Page) : SubmitOutcome :=
  match firstSubmitIdx page with
  | some i =>
    if autoSubmit then ⟨"clicked", "", clickAt page i⟩
    else ⟨"skipped", "autoSubmit=false", page⟩
  | none => ⟨"skipped", "no submit button", page⟩

end autosubmit

/-! ## Concrete test fixtures (pages, profiles and environments used to
instantiate the theorems on explicit inputs) -/

/-- A profile with only the required fields. -/
def profileJane : Profile :=
  { firstName := "Jane", lastName := "Doe", email := "jane@doe.io",
    resumePath := "/home/jane/resume.pdf" }

/-- A page with distinct structural first-name and last-name controls and a
strict full-name control. -/
def splitNamePage : Page :=
  { controls := [{ nameAttr := "first_name" }, { nameAttr := "last_name" },
                 { nameAttr := "fullName" }] }

/-- A page whose only name control is a strict full-name control. -/
def fullNamePage : Page :=
  { controls := [{ autocomplete := "name" }] }

/-- A page with an email control reachable only through its accessible
label, plus an anonymous input sitting next to a text block that contains
the word `email`: no structural selector matches anything, so the generic
pass falls through to the nearby-text heuristic even though the
accessible-label strategy has a writable match. -/
def nearbyDemoPage : Page :=
  { controls := [{ labelText := "Email" }, { tag := "input" }],
    texts := [⟨"email", [1]⟩] }

/-- A page with a single country `<select>` (label `Country`, one
`Germany` option, not fillable as a text box). -/
def countryDemoPage : Page :=
  { controls := [{ tag := "select", labelText := "Country", fillable := false,
                   options := [("Germany", "Germany")] }] }

/-- A page with a single `Apply` button. -/
def submitDemoPage : Page :=
  { controls := [{ tag := "button", textContent := "Apply now" }] }

/-- A profile with the orchestrator's question defaults filled in
explicitly (runner.mjs:790-799): `'Germany'` for country and tax
residence, `'Immediate'` for notice period, `'Flexible'` for salary. -/
def profileWithQuestionDefaults (user : Profile) : Profile :=
  { user with location := some "Germany", taxResidence := some "Germany",
              noticePeriod := some "Immediate", salary := some "Flexible" }

/-- An environment in which the body of every URL throws an exception whose
`message` property is the empty string. -/
def envEmptyMsg : String → BodyOutcome :=
  fun _ => .threw (some "") defaultMeta

/-- Constant per-URL timing/identity context. -/
def ctx0 : Nat → UrlCtx :=
  fun _ => ⟨"2026-01-01T00:00:00Z", "2026-01-01T00:00:09Z", "deadbeef0000", "/home/jane/resume.pdf"⟩

/-! ## Shared helper lemmas -/

theorem getElemLt {α : Type} {l : List α} {i : Nat} {c : α}
    (h : l[i]? = some c) : i < l.length := by
  by_contra hn
  push_neg at hn
  rw [List.getElem?_eq_none hn] at h
  cases h

theorem listGetSet_self {α : Type} (l : List α) (i : Nat) (x : α)
    (h : i < l.length) : (l.set i x)[i]? = some x := by
  induction l generalizing i with
  | nil => simp at h
  | cons a t ih =>
    cases i with
    | zero => simp
    | succ n => simpa using ih n (by simpa using h)

theorem listGetSet_ne {α : Type} (l : List α) (i j : Nat) (x : α)
    (h : i ≠ j) : (l.set i x)[j]? = l[j]? := by
  induction l generalizing i j with
  | nil => simp
  | cons a t ih =>
    cases i with
    | zero =>
      cases j with
      | zero => exact absurd rfl h
      | succ m => simp
    | succ n =>
      cases j with
      | zero => simp
      | succ m => simpa using ih n m (by omega)

theorem firstIdxWhere_found (p : Control → Bool) (l : List Control) (i : Nat)
    (h : firstIdxWhere p l = some i) :
    ∃ c, l[i]? = some c ∧ p c = true := by
  induction l generalizing i with
  | nil => simp [firstIdxWhere] at h
  | cons a t ih =>
    by_cases hp : p a
    · simp [firstIdxWhere, hp] at h
      exact ⟨a, by simp [← h], hp⟩
    · simp [firstIdxWhere, hp] at h
      obtain ⟨m, hm, hmi⟩ := h
      obtain ⟨c, hc, hpc⟩ := ih m hm
      exact ⟨c, by simpa [← hmi] using hc, hpc⟩

theorem firstIdxWhere_congr (p : Control → Bool) (l : List Control) (i : Nat) (x : Control)
    (h : ∀ c, l[i]? = some c → p x = p c) :
    firstIdxWhere p (l.set i x) = firstIdxWhere p l := by
  induction l generalizing i with
  | nil => simp
  | cons a t ih =>
    cases i with
    | zero =>
      have := h a (by simp)
      simp [firstIdxWhere, List.set, this]
    | succ n =>
      have step : ∀ c, t[n]? = some c → p x = p c := fun c hc => h c (by simpa using hc)
      simp [firstIdxWhere, List.set, ih n step]

end JobBot

namespace JobBot

/-! ## CSV escaping (claim C4) -/

theorem escapeChars_length (s : List Char) : s.length ≤ (escapeChars s).length := by
  induction s with
  | nil => simp [escapeChars]
  | cons c cs ih =>
    by_cases h : c = '"' <;> simp [escapeChars, h] <;> omega

theorem parseQuotedBody_escapeChars (s : List Char) :
    parseQuotedBody (escapeChars s ++ ['"']) = some s := by
  induction s with
  | nil => rfl
  | cons c cs ih =>
    by_cases h : c = '"'
    · subst h
      have harr : escapeChars ('"' :: cs) ++ ['"'] = '"' :: '"' :: (escapeChars cs ++ ['"']) := by
        simp [escapeChars]
      rw [harr]
      unfold parseQuotedBody
      simp [ih]
    · have harr : escapeChars (c :: cs) ++ ['"'] = c :: (escapeChars cs ++ ['"']) := by
        simp [escapeChars, h]
      rw [harr]
      unfold parseQuotedBody
      simp [h, ih]

/-- C4: CSV escaping round-trips — `escapeCsvValue` wraps a value in double
quotes with internal quotes doubled exactly when the value contains a
comma, a double quote or a newline, and reading the escaped cell back with
standard CSV rules yields the original value. -/
theorem C4_csv_roundtrip (s : List Char) :
    parseCsvCell (escapeCsvValue s) = some s ∧
    (s.any isCsvSpecial = true →
      escapeCsvValue s = '"' :: (escapeChars s ++ ['"']) ∧ escapeCsvValue s ≠ s) ∧
    (s.any isCsvSpecial = false → escapeCsvValue s = s) := by
  refine ⟨?_, fun h => ⟨by simp [escapeCsvValue, h], ?_⟩, fun h => by simp [escapeCsvValue, h]⟩
  · by_cases h : s.any isCsvSpecial
    · simp only [escapeCsvValue, h, if_true]
      simpa [parseCsvCell] using parseQuotedBody_escapeChars s
    · simp only [escapeCsvValue, h, Bool.false_eq_true, if_false]
      cases s with
      | nil => rfl
      | cons c cs =>
        have hc : c ≠ '"' := by
          intro hc
          subst hc
          simp [List.any_cons, isCsvSpecial] at h
        simp [parseCsvCell, hc, h]
  · intro heq
    have hl := congrArg List.length heq
    have := escapeChars_length s
    simp [escapeCsvValue, h] at hl
    omega

/-- C4 witness: the round trip on the concrete value `a,"b"<newline>c`
containing a comma, a quote and a newline. -/
theorem C4_csv_roundtrip_witness :
    parseCsvCell (escapeCsvValue ("a,\"b\"\nc".toList)) = some ("a,\"b\"\nc".toList) ∧
    escapeCsvValue ("a,\"b\"\nc".toList) ≠ "a,\"b\"\nc".toList :=
  ⟨(C4_csv_roundtrip _).1, ((C4_csv_roundtrip _).2.1 (by decide)).2⟩

/-! ## Log initialization (claim C5) -/

theorem escapeCsvValue_version : escapeCsvValue ['1'] = ['1'] := by decide

theorem appendCsvLine_head (row : CsvRow) : (appendCsvLine row).head? = some '1' := by
  simp [appendCsvLine, rowCells, List.map, joinComma, escapeCsvValue_version]

theorem appendCsvLine_ne_header (row : CsvRow) : appendCsvLine row ≠ csvHeaderChunk := by
  intro h
  have h1 := appendCsvLine_head row
  rw [h] at h1
  simp [csvHeaderChunk] at h1

theorem countHeaderLines_applyOp (st : CsvFile) (op : OutOp)
    (h : countHeaderLines st ≤ 1) : countHeaderLines (applyOp st op) ≤ 1 := by
  cases op with
  | ensure =>
    cases st with
    | none => simp [applyOp, ensureOutFiles, countHeaderLines]
    | some c => simpa [applyOp, ensureOutFiles, countHeaderLines] using h
  | append row =>
    cases st with
    | none =>
      simp [applyOp, countHeaderLines, List.countP_cons, appendCsvLine_ne_header row]
    | some c =>
      simpa [applyOp, countHeaderLines, List.countP_append, List.countP_cons,
        appendCsvLine_ne_header row] using h

theorem countHeaderLines_applyOps (ops : List OutOp) (st : CsvFile)
    (h : countHeaderLines st ≤ 1) : countHeaderLines (applyOps st ops) ≤ 1 := by
  induction ops generalizing st with
  | nil => simpa [applyOps] using h
  | cons op rest ih =>
    have := countHeaderLines_applyOp st op h
    simpa [applyOps, List.foldl_cons] using ih (applyOp st op) this

/-- C5: log initialization is idempotent — starting from an absent file,
any sequence of initialization and append operations leaves at most one
header line in the file; initialization writes the header only when the
file is absent and otherwise leaves the contents untouched. -/
theorem C5_header_idempotent (ops : List OutOp) :
    countHeaderLines (applyOps none ops) ≤ 1 ∧
    ensureOutFiles none = [csvHeaderChunk] ∧
    (∀ content, ensureOutFiles (some content) = content) := by
  refine ⟨countHeaderLines_applyOps ops none (by simp [countHeaderLines]), rfl, fun _ => rfl⟩

/-! ## Metadata extraction (claim C7) -/

theorem lookupSource_no_match (host : String) (l : List (String × String))
    (h : ∀ d s, (d, s) ∈ l → containsCS host d = false) :
    lookupSource host l = "Other" := by
  induction l with
  | nil => rfl
  | cons e rest ih =>
    obtain ⟨d, s⟩ := e
    have hd := h d s (by simp)
    simp [lookupSource, hd]
    exact ih (fun d' s' hmem => h d' s' (by simp [hmem]))

/-- C7: the metadata extractor never fails — whenever the browser-side
evaluation or the URL parse throws, it returns exactly the default
`{company:'', title:'', source:'Other'}`; and a hostname matching no entry
of the fixed job-board table yields source `'Other'` (also through
`extractMeta` on a successfully evaluated page). -/
theorem C7_extractMeta_default (p : MetaPage) :
    (p.evalData = none ∨ p.urlHost = none → extractMeta p = defaultMeta) ∧
    (∀ host, (∀ d s, (d, s) ∈ sourceMap → containsCS host d = false) →
      getJobBoardSource host = "Other") ∧
    (∀ d host, p.evalData = some d → p.urlHost = some host →
      (∀ dm s, (dm, s) ∈ sourceMap → containsCS host dm = false) →
      (extractMeta p).source = "Other") := by
  obtain ⟨ed, uh⟩ := p
  refine ⟨?_, fun host h => lookupSource_no_match host sourceMap h, ?_⟩
  · rintro (h | h) <;> simp only at h <;> subst h
    · rfl
    · cases ed <;> rfl
  · rintro d host h1 h2 h3
    simp only at h1 h2
    subst h1; subst h2
    simp [extractMeta, getJobBoardSource, lookupSource_no_match host sourceMap h3]

/-- C7 witness: a page whose evaluation threw yields the default record,
and the hostname `jobs.example.com` (no table entry matches) yields source
`'Other'`. -/
theorem C7_extractMeta_default_witness :
    extractMeta ⟨none, some "jobs.example.com"⟩ = defaultMeta ∧
    getJobBoardSource "jobs.example.com" = "Other" := by
  have hnone : ∀ d s, (d, s) ∈ sourceMap → containsCS "jobs.example.com" d = false := by
    intro d s hmem
    simp [sourceMap] at hmem
    rcases hmem with ⟨rfl, rfl⟩ | ⟨rfl, rfl⟩ | ⟨rfl, rfl⟩ | ⟨rfl, rfl⟩ | ⟨rfl, rfl⟩ |
      ⟨rfl, rfl⟩ | ⟨rfl, rfl⟩ <;> decide
  exact ⟨(C7_extractMeta_default ⟨none, some "jobs.example.com"⟩).1 (Or.inl rfl),
    (C7_extractMeta_default ⟨none, some "jobs.example.com"⟩).2.1 "jobs.example.com" hnone⟩

/-! ## Empty-value guard (claim C3) -/

/-- C3: every field-resolution operation — text fill, generic fill, select,
radio, file upload — immediately returns `false` and performs no DOM write
when the supplied value is empty or undefined. -/
theorem C3_empty_value_noop (page : Page) (labels : List String) (fieldType : String)
    (v : Option String) (h : isBlank v = true) :
    fillTextByLabel page labels v = ⟨false, page, []⟩ ∧
    fillGenericField page fieldType v = ⟨false, page, []⟩ ∧
    selectByLabel page labels v = ⟨false, page, []⟩ ∧
    clickRadioByLabel page labels v = ⟨false, page, []⟩ ∧
    setFileByLabel page labels v = ⟨false, page, []⟩ := by
  refine ⟨?_, ?_, ?_, ?_, ?_⟩ <;>
    simp [fillTextByLabel, fillGenericField, selectByLabel, clickRadioByLabel, setFileByLabel, h]

/-- C3 witness: the guard on an undefined value, over a concrete page with
one control, for the `email` field. -/
theorem C3_empty_value_noop_witness :
    fillTextByLabel nearbyDemoPage FIELD_LABELS.email none = ⟨false, nearbyDemoPage, []⟩ ∧
    fillGenericField nearbyDemoPage "email" none = ⟨false, nearbyDemoPage, []⟩ ∧
    selectByLabel nearbyDemoPage FIELD_LABELS.email none = ⟨false, nearbyDemoPage, []⟩ ∧
    clickRadioByLabel nearbyDemoPage FIELD_LABELS.email none = ⟨false, nearbyDemoPage, []⟩ ∧
    setFileByLabel nearbyDemoPage FIELD_LABELS.email none = ⟨false, nearbyDemoPage, []⟩ :=
  C3_empty_value_noop nearbyDemoPage FIELD_LABELS.email "email" none rfl

/-! ## Auto-submit configuration (claim C9) -/

/-- C9: in the auto-submit runner, when a submit-like control is present
and the flag is set, the control is clicked and the status is `clicked`;
when it is present and the flag is unset, nothing is clicked and the
status is `skipped` with notes `autoSubmit=false`; when no such control is
found, the status is `skipped`. -/
theorem C9_auto_submit (page : Page) (flag : Bool) :
    (∀ i, autosubmit.firstSubmitIdx page = some i → flag = true →
      autosubmit.submitStep flag page = ⟨"clicked", "", clickAt page i⟩ ∧
      ∀ c, page.controls[i]? = some c →
        (autosubmit.submitStep flag page).page.controls[i]? = some { c with clicked := true }) ∧
    (∀ i, autosubmit.firstSubmitIdx page = some i → flag = false →
      autosubmit.submitStep flag page = ⟨"skipped", "autoSubmit=false", page⟩) ∧
    (autosubmit.firstSubmitIdx page = none →
      autosubmit.submitStep flag page = ⟨"skipped", "no submit button", page⟩) := by
  refine ⟨?_, ?_, ?_⟩
  · rintro i h rfl
    refine ⟨by simp [autosubmit.submitStep, h], ?_⟩
    intro c hc
    have hlt : i < page.controls.length := getElemLt hc
    simp [autosubmit.submitStep, h, clickAt, hc, replaceAt, listGetSet_self _ _ _ hlt]
  · rintro i h rfl
    simp [autosubmit.submitStep, h]
  · intro h
    simp [autosubmit.submitStep, h]

/-- C9 witness: the three branches on a page with a single `Apply` button
(flag set and unset) and on an empty page. -/
theorem C9_auto_submit_witness :
    autosubmit.submitStep true submitDemoPage =
      ⟨"clicked", "", clickAt submitDemoPage 0⟩ ∧
    autosubmit.submitStep false submitDemoPage =
      ⟨"skipped", "autoSubmit=false", submitDemoPage⟩ ∧
    autosubmit.submitStep true ⟨[], []⟩ = ⟨"skipped", "no submit button", ⟨[], []⟩⟩ :=
  ⟨((C9_auto_submit submitDemoPage true).1 0 (by decide) rfl).1,
   (C9_auto_submit submitDemoPage false).2.1 0 (by decide) rfl,
   (C9_auto_submit ⟨[], []⟩ true).2.2 (by decide)⟩

/-! ## Built-in defaults for omitted profile fields (claim C10) -/

/-- C10: when the profile omits location, tax residence, notice period or
salary, the orchestrator's questions step behaves exactly as if the
profile had supplied `'Germany'`, `'Germany'`, `'Immediate'` and
`'Flexible'` respectively — and on a concrete page with a country select,
an all-absent profile still causes the DOM write of `'Germany'`. -/
theorem C10_omitted_defaults (user : Profile) (page : Page)
    (h1 : user.location = none) (h2 : user.taxResidence = none)
    (h3 : user.noticePeriod = none) (h4 : user.salary = none) :
    questionsStep user page = questionsStep (profileWithQuestionDefaults user) page ∧
    (questionsStep profileJane countryDemoPage).controls.map Control.value = ["Germany"] := by
  constructor
  · have e1 : jsOr (some "Germany") "Germany" = "Germany" := by decide
    have e2 : jsOr (some "Immediate") "Immediate" = "Immediate" := by decide
    have e3 : jsOr (some "Flexible") "Flexible" = "Flexible" := by decide
    simp [questionsStep, profileWithQuestionDefaults, h1, h2, h3, h4, jsOr, e1, e2, e3]
  · decide

/-- C10 witness: instantiation on the all-absent profile and the country
page. -/
theorem C10_omitted_defaults_witness :
    questionsStep profileJane countryDemoPage =
      questionsStep (profileWithQuestionDefaults profileJane) countryDemoPage ∧
    (questionsStep profileJane countryDemoPage).controls.map Control.value = ["Germany"] :=
  C10_omitted_defaults profileJane countryDemoPage rfl rfl rfl rfl

/-! ## Per-URL error isolation (claim C2) -/

theorem runBatchRecords_get (env : String → BodyOutcome) (ctx : Nat → UrlCtx) :
    ∀ (urls : List String) (j i : Nat) (url : String), urls[i]? = some url →
      (runBatchRecords env ctx j urls)[i]? = some (processUrl env (ctx (j + i)) url) := by
  intro urls
  induction urls with
  | nil => intro j i url h; simp at h
  | cons u rest ih =>
    intro j i url h
    cases i with
    | zero =>
      simp at h
      subst h
      simp [runBatchRecords]
    | succ n =>
      simp at h
      have := ih (j + 1) n url h
      simpa [runBatchRecords, Nat.add_assoc, Nat.add_comm 1 n] using this

theorem runBatchRecords_length (env : String → BodyOutcome) (ctx : Nat → UrlCtx) :
    ∀ (urls : List String) (j : Nat),
      (runBatchRecords env ctx j urls).length = urls.length := by
  intro urls
  induction urls with
  | nil => intro j; rfl
  | cons u rest ih => intro j; simp [runBatchRecords, ih (j + 1)]

/-- C2 (amended): every URL of a batch yields exactly one CSV record, in
order; when the body of a URL throws, the record's status is `error` and
its notes are the exception's message when that is a non-empty string and
`'unknown error'` otherwise; when the body completes, the record carries
the body's status and notes.  Processing always continues through the
whole list. -/
theorem C2_error_isolation (env : String → BodyOutcome) (ctx : Nat → UrlCtx)
    (urls : List String) :
    (runBatchRecords env ctx 0 urls).length = urls.length ∧
    (∀ (i : Nat) (url : String), urls[i]? = some url →
      ∃ row : CsvRow, (runBatchRecords env ctx 0 urls)[i]? = some row ∧
        row.url = url ∧
        (∀ msg meta, env url = .threw msg meta →
          row.status = "error" ∧ row.notes = jsMessage msg) ∧
        (∀ s n m, env url = .finished s n m → row.status = s ∧ row.notes = n)) := by
  refine ⟨runBatchRecords_length env ctx urls 0, ?_⟩
  intro i url h
  refine ⟨processUrl env (ctx (0 + i)) url, runBatchRecords_get env ctx urls 0 i url h, rfl, ?_, ?_⟩
  · intro msg meta hthrew
    simp [processUrl, hthrew]
  · intro s n m hfin
    simp [processUrl, hfin]

/-- C2 counterexample to the claim as stated: for a URL whose body throws
an exception whose `message` is the empty string, the recorded notes are
`'unknown error'`, not the exception's message. -/
theorem C2_error_isolation_counterexample :
    (runBatchRecords envEmptyMsg ctx0 0 ["https://jobs.example/1"]).map CsvRow.notes
      = ["unknown error"] ∧
    envEmptyMsg "https://jobs.example/1" = .threw (some "") defaultMeta ∧
    ("unknown error" : String) ≠ "" := by
  refine ⟨rfl, rfl, by decide⟩

/-- C2 witness: the amended statement instantiated on a one-URL batch whose
body throws with an empty message: one record, status `error`, notes
`'unknown error'`. -/
theorem C2_error_isolation_witness :
    ∃ row : CsvRow, (runBatchRecords envEmptyMsg ctx0 0 ["https://jobs.example/1"])[0]? = some row ∧
      row.url = "https://jobs.example/1" ∧ row.status = "error" ∧ row.notes = "unknown error" := by
  obtain ⟨row, hrow, hurl, hthrew, -⟩ :=
    (C2_error_isolation envEmptyMsg ctx0 ["https://jobs.example/1"]).2 0 "https://jobs.example/1" rfl
  obtain ⟨hs, hn⟩ := hthrew (some "") defaultMeta rfl
  exact ⟨row, hrow, hurl, hs, by simpa [jsMessage] using hn⟩

/-! ## Name-field precedence (claim C1) -/

theorem selVisibleHit_spec (page : Page) (s : Sel) (h : selVisibleHit page s = true) :
    ∃ i c, firstMatchIdx page s = some i ∧ page.controls[i]? = some c ∧ c.visible = true := by
  unfold selVisibleHit at h
  split at h
  next i heq =>
    split at h
    next c heq2 => exact ⟨i, c, heq, heq2, h⟩
    next => cases h
  next => cases h

theorem findFirstVisibleSelector_spec (page : Page) (sels : List Sel) (s : Sel)
    (h : findFirstVisibleSelector page sels = some s) :
    s ∈ sels ∧ selVisibleHit page s = true := by
  induction sels with
  | nil => simp [findFirstVisibleSelector] at h
  | cons s0 rest ih =>
    by_cases hh : selVisibleHit page s0
    · simp [findFirstVisibleSelector, hh] at h
      subst h
      exact ⟨by simp, hh⟩
    · simp [findFirstVisibleSelector, hh] at h
      obtain ⟨hmem, hvis⟩ := ih h
      exact ⟨by simp [hmem], hvis⟩

theorem matchesSel_value_update (c : Control) (v : String) (s : Sel) :
    matchesSel { c with value := v } s = matchesSel c s := rfl

theorem setValueAt_getElem_self (page : Page) (i : Nat) (c : Control) (v : String)
    (hc : page.controls[i]? = some c) :
    (setValueAt page i v).controls[i]? = some { c with value := v } := by
  unfold setValueAt
  rw [hc]
  exact listGetSet_self _ _ _ (getElemLt hc)

theorem setValueAt_getElem_ne (page : Page) (i j : Nat) (v : String) (h : i ≠ j) :
    (setValueAt page i v).controls[j]? = page.controls[j]? := by
  unfold setValueAt
  cases hc : page.controls[i]? with
  | none => rfl
  | some c => exact listGetSet_ne _ _ _ _ h

theorem firstMatchIdx_setValueAt (page : Page) (i : Nat) (c : Control) (v : String) (s : Sel)
    (hc : page.controls[i]? = some c) :
    firstMatchIdx (setValueAt page i v) s = firstMatchIdx page s := by
  unfold setValueAt
  rw [hc]
  unfold firstMatchIdx replaceAt
  exact firstIdxWhere_congr _ _ i _ (fun c' hc' => by
    rw [hc] at hc'
    cases hc'
    rfl)

theorem pageFill_eq_setValueAt (page : Page) (s : Sel) (i : Nat) (c : Control) (v : String)
    (hm : firstMatchIdx page s = some i) (hc : page.controls[i]? = some c)
    (hv : c.visible = true) (hf : c.fillable = true) :
    pageFill page s v = setValueAt page i v := by
  simp [pageFill, hm, hc, hv, hf]

theorem firstMatchIdx_found (page : Page) (s : Sel) (i : Nat)
    (h : firstMatchIdx page s = some i) :
    ∃ c, page.controls[i]? = some c ∧ matchesSel c s = true :=
  firstIdxWhere_found _ _ _ h

/-- C1: the orchestrator's three-way name precedence.  (a) When visible
structural first-name and last-name controls are both found (at distinct
positions), `firstName` and `lastName` are written into them respectively
and every control matching no first-name and no last-name selector — in
particular a structurally distinct full-name control — is left untouched.
(b) When neither is found but a strict full-name control is found, exactly
the string `firstName ++ " " ++ lastName` is written into it.  (c) In every
other case the orchestrator falls back to label-based first/last
resolution. -/
theorem C1_name_precedence (user : Profile) (page : Page) :
    (∀ s1 s2 i1 i2 c1 c2,
      findFirstVisibleSelector page FIRST_NAME_SELECTORS = some s1 →
      findFirstVisibleSelector page LAST_NAME_SELECTORS = some s2 →
      firstMatchIdx page s1 = some i1 → firstMatchIdx page s2 = some i2 →
      page.controls[i1]? = some c1 → page.controls[i2]? = some c2 →
      i1 ≠ i2 → c1.fillable = true → c2.fillable = true →
      ((nameStep user page).controls[i1]? = some { c1 with value := user.firstName } ∧
       (nameStep user page).controls[i2]? = some { c2 with value := user.lastName } ∧
       (∀ (j : Nat) (cj : Control), page.controls[j]? = some cj →
         (∀ s ∈ FIRST_NAME_SELECTORS, matchesSel cj s = false) →
         (∀ s ∈ LAST_NAME_SELECTORS, matchesSel cj s = false) →
         (nameStep user page).controls[j]? = some cj))) ∧
    (∀ s i c,
      findFirstVisibleSelector page FIRST_NAME_SELECTORS = none →
      findFirstVisibleSelector page LAST_NAME_SELECTORS = none →
      findFirstVisibleSelector page FULL_NAME_SELECTORS = some s →
      firstMatchIdx page s = some i → page.controls[i]? = some c → c.fillable = true →
      (nameStep user page).controls[i]? =
        some { c with value := user.firstName ++ " " ++ user.lastName }) ∧
    ((¬ ((findFirstVisibleSelector page FIRST_NAME_SELECTORS).isSome = true ∧
         (findFirstVisibleSelector page LAST_NAME_SELECTORS).isSome = true)) →
     (¬ (findFirstVisibleSelector page FIRST_NAME_SELECTORS = none ∧
         findFirstVisibleSelector page LAST_NAME_SELECTORS = none ∧
         (findFirstVisibleSelector page FULL_NAME_SELECTORS).isSome = true)) →
     nameStep user page =
       (fillTextByLabel
         (fillTextByLabel page FIELD_LABELS.firstName (some user.firstName)).page
         FIELD_LABELS.lastName (some user.lastName)).page) := by
  refine ⟨?_, ?_, ?_⟩
  · intro s1 s2 i1 i2 c1 c2 h1 h2 hm1 hm2 hc1 hc2 hne hf1 hf2
    obtain ⟨hmem1, hvis1⟩ := findFirstVisibleSelector_spec page _ s1 h1
    obtain ⟨hmem2, hvis2⟩ := findFirstVisibleSelector_spec page _ s2 h2
    obtain ⟨i1', c1', hm1', hc1', hv1⟩ := selVisibleHit_spec page s1 hvis1
    obtain ⟨i2', c2', hm2', hc2', hv2⟩ := selVisibleHit_spec page s2 hvis2
    rw [hm1] at hm1'
    cases hm1'
    rw [hc1] at hc1'
    cases hc1'
    rw [hm2] at hm2'
    cases hm2'
    rw [hc2] at hc2'
    cases hc2'
    have hstep : nameStep user page =
        pageFill (pageFill page s1 user.firstName) s2 user.lastName := by
      cases hfull : findFirstVisibleSelector page FULL_NAME_SELECTORS <;>
        simp [nameStep, h1, h2, hfull]
    have hfill1 : pageFill page s1 user.firstName = setValueAt page i1 user.firstName :=
      pageFill_eq_setValueAt page s1 i1 c1 user.firstName hm1 hc1 hv1 hf1
    have hm2'' : firstMatchIdx (setValueAt page i1 user.firstName) s2 = some i2 := by
      rw [firstMatchIdx_setValueAt page i1 c1 user.firstName s2 hc1, hm2]
    have hc2'' : (setValueAt page i1 user.firstName).controls[i2]? = some c2 := by
      rw [setValueAt_getElem_ne page i1 i2 user.firstName hne, hc2]
    have hfill2 : pageFill (setValueAt page i1 user.firstName) s2 user.lastName =
        setValueAt (setValueAt page i1 user.firstName) i2 user.lastName :=
      pageFill_eq_setValueAt _ s2 i2 c2 user.lastName hm2'' hc2'' hv2 hf2
    rw [hstep, hfill1, hfill2]
    refine ⟨?_, ?_, ?_⟩
    · rw [setValueAt_getElem_ne _ i2 i1 user.lastName (Ne.symm hne)]
      exact setValueAt_getElem_self page i1 c1 user.firstName hc1
    · exact setValueAt_getElem_self _ i2 c2 user.lastName hc2''
    · intro j cj hcj hnofirst hnolast
      have hji1 : j ≠ i1 := by
        intro hj
        subst hj
        obtain ⟨cx, hcx, hpx⟩ := firstMatchIdx_found page s1 j hm1
        rw [hcj] at hcx
        cases hcx
        have hfalse := hnofirst s1 hmem1
        rw [hfalse] at hpx
        cases hpx
      have hji2 : j ≠ i2 := by
        intro hj
        subst hj
        obtain ⟨cx, hcx, hpx⟩ := firstMatchIdx_found page s2 j hm2
        rw [hcj] at hcx
        cases hcx
        have hfalse := hnolast s2 hmem2
        rw [hfalse] at hpx
        cases hpx
      rw [setValueAt_getElem_ne _ i2 j user.lastName (Ne.symm hji2),
        setValueAt_getElem_ne _ i1 j user.firstName (Ne.symm hji1), hcj]
  · intro s i c h1 h2 h3 hm hc hf
    obtain ⟨hmem, hvis⟩ := findFirstVisibleSelector_spec page _ s h3
    obtain ⟨i', c', hm', hc', hv⟩ := selVisibleHit_spec page s hvis
    rw [hm] at hm'
    cases hm'
    rw [hc] at hc'
    cases hc'
    have hstep : nameStep user page =
        pageFill page s (user.firstName ++ " " ++ user.lastName) := by
      simp [nameStep, h1, h2, h3]
    rw [hstep, pageFill_eq_setValueAt page s i c _ hm hc hv hf]
    exact setValueAt_getElem_self page i c _ hc
  · intro hno hnf
    cases ha : findFirstVisibleSelector page FIRST_NAME_SELECTORS with
    | some s1 =>
      cases hb : findFirstVisibleSelector page LAST_NAME_SELECTORS with
      | some s2 => exact absurd (And.intro (by simp [ha]) (by simp [hb])) hno
      | none =>
        cases hcf : findFirstVisibleSelector page FULL_NAME_SELECTORS <;>
          simp [nameStep, ha, hb, hcf]
    | none =>
      cases hb : findFirstVisibleSelector page LAST_NAME_SELECTORS with
      | some s2 =>
        cases hcf : findFirstVisibleSelector page FULL_NAME_SELECTORS <;>
          simp [nameStep, ha, hb, hcf]
      | none =>
        cases hcf : findFirstVisibleSelector page FULL_NAME_SELECTORS with
        | some sf => exact absurd (And.intro ha (And.intro hb (by simp [hcf]))) hnf
        | none => simp [nameStep, ha, hb, hcf]

/-- C1 witness: on a page with `first_name`, `last_name` and `fullName`
inputs, the two split controls receive `Jane` and `Doe` and the full-name
control is untouched; on a page with only an `autocomplete=name` control,
it receives `Jane Doe`. -/
theorem C1_name_precedence_witness :
    (nameStep profileJane splitNamePage).controls[0]? =
      some { nameAttr := "first_name", value := "Jane" } ∧
    (nameStep profileJane splitNamePage).controls[1]? =
      some { nameAttr := "last_name", value := "Doe" } ∧
    (nameStep profileJane splitNamePage).controls[2]? =
      some { nameAttr := "fullName" } ∧
    (nameStep profileJane fullNamePage).controls[0]? =
      some { autocomplete := "name", value := "Jane Doe" } := by
  have h1 := (C1_name_precedence profileJane splitNamePage).1
    ⟨"input", "name", .containsCI, "first"⟩ ⟨"input", "name", .containsCI, "last"⟩
    0 1 { nameAttr := "first_name" } { nameAttr := "last_name" }
    (by decide) (by decide) (by decide) (by decide) (by decide) (by decide)
    (by decide) rfl rfl
  have h2 := (C1_name_precedence profileJane fullNamePage).2.1
    ⟨"input", "autocomplete", .exact, "name"⟩ 0 { autocomplete := "name" }
    (by decide) (by decide) (by decide) (by decide) (by decide) rfl
  exact ⟨h1.1, h1.2.1, h1.2.2 2 { nameAttr := "fullName" } (by decide) (by decide) (by decide), h2⟩

/-! ## Cascade order and the nearby-text heuristic (claim C8) -/

theorem structuralPass_trace_elems (page : Page) (v : String) (sels : List Sel) :
    ∀ a ∈ (structuralPass page v sels).trace, a = Attempt.structural := by
  induction sels with
  | nil => simp [structuralPass]
  | cons s rest ih =>
    unfold structuralPass
    split
    next i heq =>
      split
      next c heq2 =>
        by_cases hv : c.visible
        · by_cases hf : c.fillable
          · simp [hv, hf]
          · simpa [hv, hf, consTrace] using ih
        · simpa [hv, consTrace] using ih
      next => simpa [consTrace] using ih
    next => simpa [consTrace] using ih

theorem structuralPass_not_ok (page : Page) (v : String) (sels : List Sel)
    (h : (structuralPass page v sels).ok = false) :
    (structuralPass page v sels).trace = sels.map (fun _ => Attempt.structural) ∧
    ∀ s ∈ sels, selWriteSucceeds page s = false := by
  induction sels with
  | nil => exact ⟨rfl, by simp⟩
  | cons s rest ih =>
    cases hm : firstMatchIdx page s with
    | none =>
      have hred : structuralPass page v (s :: rest) =
          consTrace .structural (structuralPass page v rest) := by
        simp [structuralPass, hm]
      rw [hred] at h ⊢
      obtain ⟨ht, hall⟩ := ih (by simpa [consTrace] using h)
      refine ⟨by simp [consTrace, ht], ?_⟩
      intro s' hs'
      rcases List.mem_cons.mp hs' with rfl | hmem
      · simp [selWriteSucceeds, hm]
      · exact hall s' hmem
    | some i =>
      cases hc : page.controls[i]? with
      | none =>
        have hred : structuralPass page v (s :: rest) =
            consTrace .structural (structuralPass page v rest) := by
          simp [structuralPass, hm, hc]
        rw [hred] at h ⊢
        obtain ⟨ht, hall⟩ := ih (by simpa [consTrace] using h)
        refine ⟨by simp [consTrace, ht], ?_⟩
        intro s' hs'
        rcases List.mem_cons.mp hs' with rfl | hmem
        · simp [selWriteSucceeds, hm, hc]
        · exact hall s' hmem
      | some c =>
        by_cases hv : c.visible
        · by_cases hf : c.fillable
          · exfalso
            have hok : (structuralPass page v (s :: rest)).ok = true := by
              simp [structuralPass, hm, hc, hv, hf]
            rw [hok] at h
            cases h
          · have hred : structuralPass page v (s :: rest) =
                consTrace .structural (structuralPass page v rest) := by
              simp [structuralPass, hm, hc, hv, hf]
            rw [hred] at h ⊢
            obtain ⟨ht, hall⟩ := ih (by simpa [consTrace] using h)
            refine ⟨by simp [consTrace, ht], ?_⟩
            intro s' hs'
            rcases List.mem_cons.mp hs' with rfl | hmem
            · simp [selWriteSucceeds, hm, hc, hf]
            · exact hall s' hmem
        · have hred : structuralPass page v (s :: rest) =
              consTrace .structural (structuralPass page v rest) := by
            simp [structuralPass, hm, hc, hv]
          rw [hred] at h ⊢
          obtain ⟨ht, hall⟩ := ih (by simpa [consTrace] using h)
          refine ⟨by simp [consTrace, ht], ?_⟩
          intro s' hs'
          rcases List.mem_cons.mp hs' with rfl | hmem
          · simp [selWriteSucceeds, hm, hc, hv]
          · exact hall s' hmem

theorem nearbyPass_trace (page : Page) (ft v : String) :
    (nearbyPass page ft v).trace = [Attempt.nearbyText] := by
  unfold nearbyPass
  split
  next i heq =>
    split
    next c heq2 =>
      by_cases hvf : c.visible && c.fillable
      · simp [hvf]
      · simp [hvf]
    next => rfl
  next => rfl

/-- C8 (amended): within the generic (structural) resolution pass, the
nearby-text heuristic is the last resort — whenever it is attempted, every
predefined structural selector for the field either found no visible first
match or its write failed, and the attempt trace is exactly one structural
attempt per predefined selector followed by the nearby-text attempt.
The accessible-label and accessible-role strategies, however, run only
after the whole generic pass (nearby text included) has failed. -/
theorem C8_nearby_last_resort (page : Page) (ft : String) (labels : List String)
    (v : Option String) :
    (Attempt.nearbyText ∈ (fillGenericField page ft v).trace →
      (∀ s ∈ GENERIC_SELECTORS ft, selWriteSucceeds page s = false) ∧
      (fillGenericField page ft v).trace =
        (GENERIC_SELECTORS ft).map (fun _ => Attempt.structural) ++ [Attempt.nearbyText]) ∧
    ((Attempt.labelAttempt ∈ (genericThenLabel page ft labels v).trace ∨
      Attempt.roleAttempt ∈ (genericThenLabel page ft labels v).trace) →
      (fillGenericField page ft v).ok = false) := by
  constructor
  · intro h
    by_cases hb : isBlank v
    · simp [fillGenericField, hb] at h
    · rw [fillGenericField] at h ⊢
      simp only [hb, Bool.false_eq_true, if_false] at h ⊢
      cases hok : (structuralPass page (strOf v) (GENERIC_SELECTORS ft)).ok with
      | true =>
        simp only [hok, if_true] at h
        have := structuralPass_trace_elems page (strOf v) (GENERIC_SELECTORS ft)
          Attempt.nearbyText h
        cases this
      | false =>
        obtain ⟨ht, hall⟩ := structuralPass_not_ok page (strOf v) (GENERIC_SELECTORS ft) hok
        simp only [hok, Bool.false_eq_true, if_false]
        exact ⟨hall, by simp [ht, nearbyPass_trace]⟩
  · intro h
    cases hok : (fillGenericField page ft v).ok with
    | false => rfl
    | true =>
      exfalso
      rw [genericThenLabel] at h
      simp only [hok, if_true] at h
      by_cases hb : isBlank v
      · simp [fillGenericField, hb] at h
      · rw [fillGenericField] at h hok
        simp only [hb, Bool.false_eq_true, if_false] at h hok
        cases hsok : (structuralPass page (strOf v) (GENERIC_SELECTORS ft)).ok with
        | true =>
          simp only [hsok, if_true] at h
          rcases h with h | h <;>
            cases structuralPass_trace_elems page (strOf v) (GENERIC_SELECTORS ft) _ h
        | false =>
          simp only [hsok, Bool.false_eq_true, if_false] at h
          obtain ⟨ht, -⟩ := structuralPass_not_ok page (strOf v) (GENERIC_SELECTORS ft) hsok
          rw [ht, nearbyPass_trace] at h
          rcases h with h | h <;> rw [List.mem_append] at h <;> rcases h with h | h <;>
            simp [List.mem_map] at h

/-- C8 counterexample to the claim as stated: on a page whose only email
control is reachable through the accessible-label strategy, the nearby-text
heuristic is attempted (and writes) while the accessible-label and
accessible-role strategies were never attempted at all — even though the
label strategy had a visible, writable match for a registry label. -/
theorem C8_nearby_last_resort_counterexample :
    (fillGenericField nearbyDemoPage "email" (some "a@b.com")).ok = true ∧
    Attempt.nearbyText ∈ (fillGenericField nearbyDemoPage "email" (some "a@b.com")).trace ∧
    Attempt.labelAttempt ∉
      (genericThenLabel nearbyDemoPage "email" FIELD_LABELS.email (some "a@b.com")).trace ∧
    Attempt.roleAttempt ∉
      (genericThenLabel nearbyDemoPage "email" FIELD_LABELS.email (some "a@b.com")).trace ∧
    (getByLabelIdx nearbyDemoPage "Email").isSome = true ∧
    "Email" ∈ FIELD_LABELS.email ∧
    (nearbyDemoPage.controls[0]?.map (fun c => c.visible && c.fillable)) = some true ∧
    (fillGenericField nearbyDemoPage "email" (some "a@b.com")).page.controls[1]? =
      some { tag := "input", value := "a@b.com" } := by
  decide

/-- C8 witness: on an empty page the generic email pass attempts every
structural selector and then the nearby-text heuristic, all unsuccessfully. -/
theorem C8_nearby_last_resort_witness :
    (∀ s ∈ GENERIC_SELECTORS "email", selWriteSucceeds (⟨[], []⟩ : Page) s = false) ∧
    (fillGenericField ⟨[], []⟩ "email" (some "x")).trace =
      (GENERIC_SELECTORS "email").map (fun _ => Attempt.structural) ++ [Attempt.nearbyText] :=
  (C8_nearby_last_resort ⟨[], []⟩ "email" FIELD_LABELS.email (some "x")).1 (by decide)

/-! ## Form-stability detector (claim C6) -/

theorem trailingRun_of_ident (counts : Nat → Nat) (k : Nat)
    (h : counts k = prevCount counts k) :
    trailingRun counts k = stableOf counts k + 1 := by
  cases k with
  | zero => simp [trailingRun, stableOf, h]
  | succ j => simp [trailingRun, stableOf, h]

theorem trailingRun_of_change (counts : Nat → Nat) (k : Nat)
    (h : ¬ counts k = prevCount counts k) :
    trailingRun counts k = 0 := by
  cases k with
  | zero => simp [trailingRun, h]
  | succ j => simp [trailingRun, h]

theorem stabilityLoop_spec (counts : Nat → Nat) :
    ∀ (fuel k : Nat),
      (∀ j, j < k → trailingRun counts j < 3) →
      (stabilityLoop counts fuel k (prevCount counts k) (stableOf counts k) = true ↔
        ∃ j, k ≤ j ∧ j < k + fuel ∧ 3 ≤ trailingRun counts j) := by
  intro fuel
  induction fuel with
  | zero =>
    intro k hinv
    simp only [stabilityLoop]
    constructor
    · intro h
      cases h
    · rintro ⟨j, h1, h2, -⟩
      omega
  | succ fuel ih =>
    intro k hinv
    by_cases hc : counts k = prevCount counts k
    · have hrun := trailingRun_of_ident counts k hc
      by_cases hs : stableOf counts k + 1 ≥ 3
      · have hloop : stabilityLoop counts (fuel + 1) k (prevCount counts k)
            (stableOf counts k) = true := by
          simp [stabilityLoop, hc, hs]
        rw [hloop]
        simp only [true_iff]
        exact ⟨k, le_refl k, by omega, by omega⟩
      · have hloop : stabilityLoop counts (fuel + 1) k (prevCount counts k)
            (stableOf counts k) =
            stabilityLoop counts fuel (k + 1) (counts k) (stableOf counts k + 1) := by
          simp [stabilityLoop, hc, hs]
        have hprev : counts k = prevCount counts (k + 1) := rfl
        have hstable : stableOf counts k + 1 = stableOf counts (k + 1) := by
          simp [stableOf, hrun]
        have hinv2 : ∀ j, j < k + 1 → trailingRun counts j < 3 := by
          intro j hj
          rcases Nat.lt_succ_iff_lt_or_eq.mp hj with hj2 | rfl
          · exact hinv j hj2
          · omega
        rw [hloop, hprev, hstable, ih (k + 1) hinv2]
        constructor
        · rintro ⟨j, h1, h2, h3⟩
          exact ⟨j, by omega, by omega, h3⟩
        · rintro ⟨j, h1, h2, h3⟩
          have hjk : j ≠ k := by
            intro hjk
            subst hjk
            omega
          exact ⟨j, by omega, by omega, h3⟩
    · have hrun := trailingRun_of_change counts k hc
      have hloop : stabilityLoop counts (fuel + 1) k (prevCount counts k)
          (stableOf counts k) =
          stabilityLoop counts fuel (k + 1) (counts k) 0 := by
        simp [stabilityLoop, hc]
      have hprev : counts k = prevCount counts (k + 1) := rfl
      have hstable : (0 : Nat) = stableOf counts (k + 1) := by
        simp [stableOf, hrun]
      have hinv2 : ∀ j, j < k + 1 → trailingRun counts j < 3 := by
        intro j hj
        rcases Nat.lt_succ_iff_lt_or_eq.mp hj with hj2 | rfl
        · exact hinv j hj2
        · omega
      rw [hloop, hprev, hstable, ih (k + 1) hinv2]
      constructor
      · rintro ⟨j, h1, h2, h3⟩
        exact ⟨j, by omega, by omega, h3⟩
      · rintro ⟨j, h1, h2, h3⟩
        have hjk : j ≠ k := by
          intro hjk
          subst hjk
          omega
        exact ⟨j, by omega, by omega, h3⟩

/-- C6 (amended): the detector polls the form-control count every 500 ms
with a budget of `maxWaitTime` (default 5000 ms, allowing the polls at
`500·k < maxWaitTime`); it maintains a counter of consecutive polls whose
count equalled the previous poll's count, with the count before the first
poll taken to be `0`, and returns `true` as soon as that counter reaches
`3`, `false` if the budget is exhausted first. -/
theorem C6_stability_semantics (counts : Nat → Nat) (maxWaitTime : Nat) :
    waitForFormStability counts maxWaitTime = true ↔
      ∃ j, 500 * j < maxWaitTime ∧ 3 ≤ trailingRun counts j := by
  have hbound : ∀ j : Nat, j < (maxWaitTime + 499) / 500 ↔ 500 * j < maxWaitTime := by
    intro j
    rw [Nat.lt_iff_add_one_le, Nat.le_div_iff_mul_le (by norm_num : 0 < 500)]
    omega
  have h := stabilityLoop_spec counts ((maxWaitTime + 499) / 500) 0 (by omega)
  rw [show prevCount counts 0 = 0 from rfl, show stableOf counts 0 = 0 from rfl] at h
  unfold waitForFormStability
  rw [h]
  constructor
  · rintro ⟨j, -, h2, h3⟩
    exact ⟨j, (hbound j).mp (by omega), h3⟩
  · rintro ⟨j, h2, h3⟩
    exact ⟨j, by omega, by simpa using (hbound j).mpr h2, h3⟩

/-- C6 counterexample to the claim as stated: with a constant count of `5`
and a 1200 ms budget, the three polls at 0 ms, 500 ms and 1000 ms (all
within the budget) observe identical counts, yet the detector returns
`false` — the stability counter starts against the phantom previous count
`0`, so a non-zero constant count needs four polls, and only three fit the
budget. -/
theorem C6_stability_counterexample :
    waitForFormStability (fun _ => 5) 1200 = false ∧
    ((fun _ => 5) 0 : Nat) = (fun _ => 5) 1 ∧
    ((fun _ => 5) 1 : Nat) = (fun _ => 5) 2 ∧
    500 * 2 < 1200 := by
  decide

/-- C6 witness: a page whose control count is constantly `0` (matching the
phantom initial previous count) stabilizes within a 1200 ms budget. -/
theorem C6_stability_witness : waitForFormStability (fun _ => 0) 1200 = true :=
  (C6_stability_semantics (fun _ => 0) 1200).mpr ⟨2, by omega, by decide⟩

end JobBot
